import Mathlib

/-!
Verification of the agent execution kernel of this repository against its
natural-language specification. Each section shallowly embeds one source
module: JavaScript objects become association lists, JavaScript numbers
become `Nat`/`Int`/`Rat` (exact where the operations used are exact on
floats), fallible code returns `Except`, and stateful code is modelled by
explicit state passing.
-/

namespace Tetsuo

/-! ## Runtime settings (security/settings.ts)

`RuntimeSettings` values and patches are JSON-shaped objects. We embed them
as association lists of `JVal`, preserving JavaScript object key order
(insertion order), which both `Object.entries` and the spread operator
respect. -/

namespace Settings

/-- JSON-like values as they occur in `RuntimeSettings` and in patches sent
to `updateSettings`. Arrays in the settings schema hold strings only
(`allowedDomains`, `blockedDomains`). -/
inductive JVal where
  | bool (b : Bool)
  | num (n : Nat)
  | str (s : String)
  | arr (xs : List String)
  | obj (fields : List (String × JVal))
deriving Repr

/-- Template-literal stringification, as in the expression
`` `${key}:${value}` `` of `updateSettings`. Objects never reach this point
because `flattenForCheck` recurses into them first. -/
def jvalString : JVal → String
  | .bool true => "true"
  | .bool false => "false"
  | .num n => toString n
  | .str s => s
  | .arr xs => String.intercalate "," xs
  | .obj _ => "object Object"

/-- First value bound to key `k`, as `Map`/object property lookup. -/
def lookup (fields : List (String × JVal)) (k : String) : Option JVal :=
  (fields.find? (fun kv => kv.1 = k)).map (fun kv => kv.2)

/-- `flattenForCheck` from settings.ts: flattens nested plain objects into
dot-separated keys; arrays and scalars are leaves. -/
def flattenForCheck (pre : String) : List (String × JVal) → List (String × JVal)
  | [] => []
  | (k, v) :: rest =>
    let key := if pre = "" then k else pre ++ "." ++ k
    (match v with
     | .obj fs => flattenForCheck key fs
     | other => [(key, other)]) ++ flattenForCheck pre rest

/-- JavaScript object property assignment on an association list: an
existing key is updated in place, a new key is appended. -/
def setField : List (String × JVal) → String → JVal → List (String × JVal)
  | [], k, v => [(k, v)]
  | (k', v') :: rest, k, v =>
    if k' = k then (k, v) :: rest else (k', v') :: setField rest k v

mutual

/-- `deepMerge` from settings.ts: plain objects merge recursively, any
other source value (scalar or array) replaces the target value. In the
`RuntimeSettings` schema a patch field is an object exactly when the
stored field is, so the object/object case is the only recursive one
exercised. -/
def deepMerge (t : List (String × JVal)) : List (String × JVal) → List (String × JVal)
  | [] => t
  | (k, sv) :: rest => deepMerge (setField t k (mergeVal (lookup t k) sv)) rest

/-- Value-level merge step of `deepMerge`. -/
def mergeVal (tv : Option JVal) (sv : JVal) : JVal :=
  match tv, sv with
  | some (.obj tfs), .obj sfs => .obj (deepMerge tfs sfs)
  | _, sv => sv

end

/-- The `DANGEROUS_KEYS` table of `updateSettings`: flattened key, the
value that makes it dangerous (stringified), and the human-readable
reason. -/
def DANGEROUS_KEYS : List (String × String) :=
  [ ("sandboxEnabled:false", "Disabling sandbox allows unrestricted shell commands"),
    ("ssrfProtectionEnabled:false", "Disabling SSRF protection exposes internal networks"),
    ("gatewayAuthEnabled:false", "Disabling gateway auth lets anyone control the agent"),
    ("allowLocalhost:true", "Allowing localhost exposes internal services to the agent"),
    ("toolPermissions.systemControl:true", "System control gives the agent OS-level access"),
    ("toolPermissions.email:true", "Email access lets the agent send messages as you"),
    ("toolPermissions.socialMedia:true", "Social media lets the agent post publicly as you"),
    ("autonomyLevel:high", "High autonomy lets the agent act without asking permission") ]

/-- Reason attached to a dangerous `key:value` pair, if any. -/
def dangerousReason (dangerKey : String) : Option String :=
  (DANGEROUS_KEYS.find? (fun kv => kv.1 = dangerKey)).map (fun kv => kv.2)

/-- Result triple of `updateSettings`: the settings after the call, the
`applied` list and the `requiresConfirm` list it returns. -/
structure UpdateResult where
  current : List (String × JVal)
  applied : List String
  requiresConfirm : List String
deriving Repr

/-- `updateSettings` from settings.ts. `genTok` stands for
`generateConfirmToken` (a hash of the danger key and a coarse time
bucket); `confirmToken` is the optional token argument (`none` models the
JavaScript `undefined`). Faithful to the source: after partitioning the
flattened patch keys into `applied` and `requiresConfirm`, the function
returns early only when NO key was applied; otherwise it deep-merges the
ENTIRE patch into the current settings and reports every flattened patch
key as applied. -/
def updateSettings (genTok : String → String)
    (current patch : List (String × JVal)) (confirmToken : Option String) :
    UpdateResult :=
  let flat := flattenForCheck "" patch
  let part := flat.foldl (fun (acc : List String × List String) kv =>
    let dangerKey := kv.1 ++ ":" ++ jvalString kv.2
    match dangerousReason dangerKey with
    | some reason =>
      if confirmToken = some (genTok dangerKey) then
        (acc.1 ++ [kv.1], acc.2)
      else
        (acc.1, acc.2 ++ [kv.1 ++ " → " ++ jvalString kv.2 ++ ": " ++ reason])
    | none => (acc.1 ++ [kv.1], acc.2)) ([], [])
  if part.2 ≠ [] ∧ part.1 = [] then
    ⟨current, [], part.2⟩
  else
    ⟨deepMerge current patch, flat.map (fun kv => kv.1), part.2⟩

/-- The `DEFAULTS` literal of settings.ts. -/
def DEFAULTS : List (String × JVal) :=
  [ ("sandboxEnabled", .bool true),
    ("ssrfProtectionEnabled", .bool true),
    ("promptInjectionGuards", .bool true),
    ("gatewayAuthEnabled", .bool true),
    ("auditLogEnabled", .bool true),
    ("shellTimeoutMs", .num 30000),
    ("maxToolOutputChars", .num 50000),
    ("gatewayRateLimitPerMin", .num 60),
    ("llmRateLimitPerMin", .num 30),
    ("maxRequestBodyBytes", .num 1048576),
    ("maxToolCallsPerMessage", .num 20),
    ("toolPermissions", .obj
      [ ("shell", .bool true),
        ("fileRead", .bool true),
        ("fileWrite", .bool true),
        ("webFetch", .bool true),
        ("browser", .bool true),
        ("email", .bool false),
        ("socialMedia", .bool false),
        ("systemControl", .bool false) ]),
    ("allowedDomains", .arr []),
    ("blockedDomains", .arr []),
    ("allowLocalhost", .bool false),
    ("autonomyLevel", .str "medium"),
    ("agentName", .str "Agent"),
    ("integrations", .obj
      [ ("email", .obj
          [ ("enabled", .bool false), ("host", .str ""), ("port", .num 993),
            ("secure", .bool true), ("user", .str ""), ("pass", .str ""),
            ("smtpHost", .str ""), ("smtpPort", .num 587) ]),
        ("reddit", .obj
          [ ("enabled", .bool false), ("clientId", .str ""),
            ("clientSecret", .str ""), ("username", .str ""),
            ("password", .str "") ]),
        ("mastodon", .obj
          [ ("enabled", .bool false), ("instanceUrl", .str ""),
            ("accessToken", .str "") ]),
        ("github", .obj
          [ ("enabled", .bool false), ("token", .str "") ]) ]) ]

end Settings

/-! ## String primitives

Structural re-implementations of the string operations the embedded code
uses (`split`, `join`, `startsWith`, `endsWith`, `toLowerCase`, decimal
parsing), so that every definition evaluates by kernel reduction. They
operate on the character list underlying a `String` and agree with the
JavaScript operations on the inputs exercised here (ASCII, single-char
separators). -/

namespace Str

/-- Split a character list at every occurrence of `c` (JavaScript
`split(c)`): the empty list yields one empty part, separators at the ends
yield empty parts. -/
def splitOnCharList (c : Char) (cs : List Char) : List (List Char) :=
  cs.foldr (fun x acc =>
    match acc with
    | [] => [[x]]
    | cur :: rest => if x = c then [] :: cur :: rest else (x :: cur) :: rest) [[]]

/-- `split(c)` on strings. -/
def splitOn (c : Char) (s : String) : List String :=
  (splitOnCharList c s.toList).map String.mk

/-- `join(c)` (equivalently `String.intercalate` with a one-char
separator). -/
def joinSep (c : Char) : List String → String
  | [] => ""
  | [p] => p
  | p :: q :: rest => p ++ String.mk [c] ++ joinSep c (q :: rest)

/-- JavaScript `startsWith`. -/
def startsWith (s pre : String) : Bool :=
  pre.toList.isPrefixOf s.toList

/-- JavaScript `endsWith`. -/
def endsWith (s suf : String) : Bool :=
  suf.toList.isSuffixOf s.toList

/-- Lowercase one ASCII character. -/
def lowerChar (ch : Char) : Char :=
  if 'A' ≤ ch ∧ ch ≤ 'Z' then Char.ofNat (ch.toNat + 32) else ch

/-- JavaScript `toLowerCase` on the ASCII strings exercised here. -/
def toLower (s : String) : String :=
  String.mk (s.toList.map lowerChar)

/-- Decimal parse with a default: the value of an all-digit nonempty
string, `d` otherwise. -/
def toNatD (s : String) (d : Nat) : Nat :=
  if s.toList ≠ [] ∧ s.toList.all Char.isDigit then
    s.toList.foldl (fun a ch => a * 10 + (ch.toNat - 48)) 0
  else d

/-- String length (code points; the strings here are ASCII). -/
def strLength (s : String) : Nat := s.toList.length

end Str

/-! ## Path jail (security/guard.ts, safePath)

Node path semantics (posix flavour) modelled component-wise:
`NodePath.normalize` and `NodePath.resolve` follow `path.posix.normalize`
and `path.posix.resolve`, whose core is `normalizeStringPosix` — it walks
the `/`-separated components, drops empty and `.` components, and pops a
component for each `..` (keeping leading `..` only for relative paths). -/

namespace NodePath

/-- One step of `normalizeStringPosix`: `racc` is the list of kept
components in reverse order. When `allowAboveRoot` is false (absolute
paths), surplus `..` components are dropped at the root. -/
def normStep (allowAboveRoot : Bool) (racc : List String) (p : String) : List String :=
  if p = "" ∨ p = "." then racc
  else if p = ".." then
    match racc with
    | [] => if allowAboveRoot then [".."] else []
    | q :: rest => if q = ".." then ".." :: q :: rest else rest
  else p :: racc

/-- `normalizeStringPosix` on a component list. -/
def normParts (allowAboveRoot : Bool) (parts : List String) : List String :=
  (parts.foldl (normStep allowAboveRoot) []).reverse

/-- `path.posix.normalize`. Trailing separators are preserved on non-root
results, as in Node. -/
def normalize (p : String) : String :=
  if p = "" then "."
  else
    let abs := Str.startsWith p "/"
    let trailing := Str.endsWith p "/" ∧ 1 < Str.strLength p
    let body := Str.joinSep '/' (normParts (¬ abs) (Str.splitOn '/' p))
    if abs then
      if body = "" then "/" else "/" ++ body ++ (if trailing then "/" else "")
    else
      if body = "" then (if trailing then "./" else ".")
      else body ++ (if trailing then "/" else "")

/-- The right-to-left accumulation loop of `path.posix.resolve`: walks the
arguments from the last one backwards, collecting `arg ++ "/"` prefixes
until an absolute argument is found, falling back to the process working
directory `cwd`. `rargs` is the argument list already reversed. -/
def resolveWalk (cwd : String) (suffix : String) : List String → String × Bool
  | [] => (cwd ++ "/" ++ suffix, Str.startsWith cwd "/")
  | a :: rest =>
    if a = "" then resolveWalk cwd suffix rest
    else if Str.startsWith a "/" then (a ++ "/" ++ suffix, true)
    else resolveWalk cwd (a ++ "/" ++ suffix) rest

/-- `path.posix.resolve(args...)` with explicit working directory. -/
def resolve (cwd : String) (args : List String) : String :=
  let walked := resolveWalk cwd "" args.reverse
  let body := Str.joinSep '/' (normParts (¬ walked.2) (Str.splitOn '/' walked.1))
  if walked.2 then
    if body = "" then "/" else "/" ++ body
  else
    if body = "" then "." else body

/-- `path.posix.isAbsolute`. -/
def isAbsolute (p : String) : Bool := Str.startsWith p "/"

end NodePath

namespace Guard

/-- `safePath` from security/guard.ts, with the configured workspace root
`ws` and the process working directory `cwd` explicit. Rejects NUL bytes,
resolves the input (absolute inputs on their own, relative inputs against
the resolved workspace), and fails unless the normalized result is the
normalized workspace or starts with it followed by the separator. -/
def safePath (cwd ws p : String) : Except String String :=
  if p.toList.contains (Char.ofNat 0) then
    .error "Path contains null bytes"
  else
    let workspace := NodePath.resolve cwd [ws]
    let resolved :=
      if NodePath.isAbsolute p then NodePath.resolve cwd [p]
      else NodePath.resolve cwd [workspace, p]
    let normalizedResolved := NodePath.normalize resolved
    let normalizedWorkspace := NodePath.normalize workspace
    if Str.startsWith normalizedResolved (normalizedWorkspace ++ "/") ∨
        normalizedResolved = normalizedWorkspace then
      .ok normalizedResolved
    else
      .error ("Path traversal blocked: resolves outside workspace")

/-! ## SSRF protection (security/guard.ts, validateURL)

URL parsing follows the WHATWG URL Standard as implemented by Node URL
class, restricted to the URL shapes exercised here (no userinfo, no
percent-encoding in the host). The load-bearing WHATWG detail: for an
IPv6 literal the `hostname` getter returns the serialized host WITH its
square brackets, e.g. `http://[::1]/` has hostname `"[::1]"`. -/

/-- Scheme and hostname of a parsed URL; the only parts `validateURL`
inspects. -/
structure ParsedURL where
  scheme : String
  hostname : String
deriving Repr, DecidableEq

/-- Split a character list at the first occurrence of `c`. -/
def splitFirst (c : Char) : List Char → Option (List Char × List Char)
  | [] => none
  | x :: xs =>
    if x = c then some ([], xs)
    else (splitFirst c xs).map (fun pr => (x :: pr.1, pr.2))

/-- WHATWG-style parse of the URL strings exercised by the claims:
scheme up to the first colon (lowercased); for an authority introduced by
`//` the host runs to the next `/`, `?` or `#`; a bracketed IPv6 host
keeps its brackets and a port suffix after `:` is dropped. `http` and
`https` URLs with an empty host are invalid. -/
def parseURL (raw : String) : Option ParsedURL :=
  match splitFirst ':' raw.toList with
  | none => none
  | some (schemeCs, rest) =>
    if schemeCs = [] ∨ ¬ schemeCs.all (fun ch => ch.isAlpha) then none
    else
      let scheme := Str.toLower (String.mk schemeCs)
      let hostname :=
        match rest with
        | '/' :: '/' :: tail =>
          let authority := tail.takeWhile (fun ch => ch ≠ '/' ∧ ch ≠ '?' ∧ ch ≠ '#')
          Str.toLower (match authority with
           | '[' :: inner =>
             String.mk ('[' :: inner.takeWhile (fun ch => ch ≠ ']') ++ [']'])
           | _ => String.mk (authority.takeWhile (fun ch => ch ≠ ':')))
        | _ => ""
      if (scheme = "http" ∨ scheme = "https") ∧ hostname = "" then none
      else some ⟨scheme, hostname⟩

/-- `BLOCKED_IP_RANGES` from security/guard.ts. -/
def BLOCKED_IP_RANGES : List (String × String) :=
  [ ("0.0.0.0", "0.255.255.255"),
    ("10.0.0.0", "10.255.255.255"),
    ("100.64.0.0", "100.127.255.255"),
    ("127.0.0.0", "127.255.255.255"),
    ("169.254.0.0", "169.254.255.255"),
    ("172.16.0.0", "172.31.255.255"),
    ("192.0.0.0", "192.0.0.255"),
    ("192.168.0.0", "192.168.255.255"),
    ("198.18.0.0", "198.19.255.255") ]

/-- `BLOCKED_SCHEMES` from security/guard.ts. -/
def BLOCKED_SCHEMES : List String := ["file", "ftp", "gopher", "data", "javascript"]

/-- `ipToLong`: fold the dotted-quad octets into a 32-bit unsigned value.
JavaScript `(acc << 8) + parseInt(octet)` with the final `>>> 0` is
arithmetic mod 2^32; callers only pass dotted-quad strings (validated by
`net.isIP` or produced by `dns.resolve4`), for which `parseInt` is plain
decimal parsing. -/
def ipToLong (ip : String) : Nat :=
  ((Str.splitOn '.' ip).foldl (fun acc o => acc * 256 + Str.toNatD o 0) 0) % (2 ^ 32)

/-- `isBlockedIP` from security/guard.ts. -/
def isBlockedIP (ip : String) : Bool :=
  ip = "::1" ∨ ip = "::ffff:127.0.0.1" ∨
    BLOCKED_IP_RANGES.any (fun r =>
      ipToLong r.1 ≤ ipToLong ip ∧ ipToLong ip ≤ ipToLong r.2)

/-- One octet of a dotted quad: one to three decimal digits, value at
most 255. -/
def validOctet (s : String) : Bool :=
  s ≠ "" ∧ Str.strLength s ≤ 3 ∧ s.toList.all Char.isDigit ∧ Str.toNatD s 256 ≤ 255

/-- `net.isIP` restricted to the host strings reachable from `parseURL`:
4 for a dotted-quad IPv4 literal, 6 for a bracket-free IPv6 textual form
(hex digits and colons), 0 otherwise. A bracketed host such as `"[::1]"`
is NOT an IP literal for `net.isIP`. -/
def netIsIP (s : String) : Nat :=
  if (Str.splitOn '.' s).length = 4 ∧ (Str.splitOn '.' s).all validOctet then 4
  else if s.toList.contains ':' ∧
      s.toList.all (fun ch => ch.isDigit ∨ ch = ':' ∨
        ('a' ≤ ch ∧ ch ≤ 'f') ∨ ('A' ≤ ch ∧ ch ≤ 'F')) then 6
  else 0

/-- `validateURL` from security/guard.ts. `dnsResolve4` models
`dns.resolve4`: `some addrs` for a successful A lookup, `none` for a DNS
failure (which the source deliberately lets through). Returns the parsed
URL or the `SecurityError` message. -/
def validateURL (dnsResolve4 : String → Option (List String)) (raw : String) :
    Except String ParsedURL :=
  match parseURL raw with
  | none => .error ("Invalid URL: " ++ raw)
  | some parsed =>
    let scheme := parsed.scheme
    if BLOCKED_SCHEMES.contains scheme then
      .error ("Blocked URL scheme: " ++ scheme)
    else if scheme ≠ "http" ∧ scheme ≠ "https" then
      .error ("Unsupported URL scheme: " ++ scheme)
    else if netIsIP parsed.hostname ≠ 0 then
      if isBlockedIP parsed.hostname then
        .error ("SSRF blocked: " ++ parsed.hostname ++ " is a private/internal IP")
      else .ok parsed
    else
      match dnsResolve4 parsed.hostname with
      | some addresses =>
        if addresses.any isBlockedIP then
          .error ("SSRF blocked: " ++ parsed.hostname ++ " resolves to a private IP")
        else .ok parsed
      | none => .ok parsed

/-- Convenience for stating that `validateURL` raised `SecurityError`. -/
def isSecurityError (r : Except String ParsedURL) : Bool :=
  match r with
  | .error _ => true
  | .ok _ => false

/-! ## Gateway authentication (security/guard.ts + gateway/server.ts)

Tokens are byte sequences (`List Nat`). `crypto.timingSafeEqual` compares
two buffers in constant time but THROWS a `RangeError` when the buffers
have different byte lengths; we model that with `Except Unit Bool`. -/

/-- `crypto.timingSafeEqual(a, b)`: equality for equal lengths, a thrown
`RangeError` otherwise. -/
def timingSafeEqual (a b : List Nat) : Except Unit Bool :=
  if a.length = b.length then .ok (a = b) else .error ()

/-- `validateGatewayToken` from security/guard.ts. `stored` is the module
state `gatewayToken` (`none` before `initGatewayAuth`); `tok` is the
candidate (`none` models `undefined`). JavaScript truthiness makes the
empty string falsy, hence the explicit empty checks. The result is inside
`Except` because `timingSafeEqual` can throw. -/
def validateGatewayToken (authEnabled : Bool) (stored tok : Option (List Nat)) :
    Except Unit Bool :=
  if ¬ authEnabled then .ok true
  else
    match stored, tok with
    | some s, some t =>
      if s = [] ∨ t = [] then .ok false else timingSafeEqual t s
    | _, _ => .ok false

/-- Outcome of the gateway HTTP authentication middleware for a request
that passed the rate limiter. -/
inductive GatewayOutcome where
  | pass
  | unauthorized
  | serverError
deriving Repr, DecidableEq

/-- The token-validation step of the authentication middleware in
gateway/server.ts. A `false` verdict yields the explicit 401 response; an
exception thrown by `validateGatewayToken` (length-mismatched buffers)
propagates out of the synchronous middleware, which Express converts to
its default 500 response. -/
def authMiddleware (authEnabled : Bool) (stored tok : Option (List Nat)) :
    GatewayOutcome :=
  if ¬ authEnabled then .pass
  else
    match validateGatewayToken authEnabled stored tok with
    | .ok true => .pass
    | .ok false => .unauthorized
    | .error _ => .serverError

/-! ## Rate limiter (security/guard.ts, checkRateLimit)

Buckets hold a fractional token count and the last refill timestamp
(milliseconds). JavaScript numbers are modelled as `Rat`; the operations
used (`+`, `-`, `*`, `/`, `min`, comparisons) are exact on the small
values the claims exercise. The bucket map is an association list in
insertion order; `Map.set` updates the unique entry for a key in place. -/

/-- One rate-limit bucket. -/
structure Bucket where
  tokens : Rat
  lastRefill : Rat
deriving Repr, DecidableEq

/-- The bucket map. -/
abbrev BucketMap := List (String × Bucket)

/-- `Map.get`. -/
def bucketGet (st : BucketMap) (key : String) : Option Bucket :=
  (st.find? (fun kv => kv.1 = key)).map (fun kv => kv.2)

/-- `Map.set`: update the (unique) entry for `key` in place, append when
absent. -/
def bucketSet : BucketMap → String → Bucket → BucketMap
  | [], key, b => [(key, b)]
  | (k, b') :: rest, key, b =>
    if k = key then (key, b) :: rest else (k, b') :: bucketSet rest key b

/-- `checkRateLimit` from security/guard.ts with the clock explicit:
`now` is `Date.now()` in milliseconds. Returns the verdict and the bucket
map after the call. A missing bucket starts full; elapsed time refills at
`refillPerSecond`, capped at `maxTokens`; a call only succeeds (and only
consumes a token) when at least one whole token is available — but the
refill and the `lastRefill` stamp are written back in either case. -/
def checkRateLimit (now : Rat) (key : String) (maxTokens refillPerSecond : Rat)
    (st : BucketMap) : Bool × BucketMap :=
  let bucket := (bucketGet st key).getD ⟨maxTokens, now⟩
  let elapsed := (now - bucket.lastRefill) / 1000
  let tokens := min maxTokens (bucket.tokens + elapsed * refillPerSecond)
  if tokens < 1 then
    (false, bucketSet st key ⟨tokens, now⟩)
  else
    (true, bucketSet st key ⟨tokens - 1, now⟩)

/-- `n` consecutive `checkRateLimit` calls with the same arguments,
returning the verdicts in order and the final bucket map. -/
def checkRateLimitN (now : Rat) (key : String) (maxTokens refillPerSecond : Rat) :
    Nat → BucketMap → List Bool × BucketMap
  | 0, st => ([], st)
  | n + 1, st =>
    let fst := checkRateLimit now key maxTokens refillPerSecond st
    let rest := checkRateLimitN now key maxTokens refillPerSecond n fst.2
    (fst.1 :: rest.1, rest.2)

end Guard

/-! ## Task queue (tasks/queue.ts)

Only the fields that the ordering functions inspect are carried; the
remaining `Task` fields (title, steps, usage, …) do not affect
`getAllTasks`, `getTasksByStatus` or `getNextPendingTask`. Timestamps are
epoch milliseconds. `Array.prototype.sort` is stable (guaranteed by the
ECMAScript specification), so it is modelled by the stable
`List.mergeSort`, with the JavaScript comparator `cmp a b < 0` rendered
as the corresponding boolean `le`. -/

namespace Queue

/-- Task status values. -/
inductive TaskStatus where
  | pending | running | waiting_approval | paused | completed | failed | cancelled
deriving Repr, DecidableEq

/-- Task priority values. -/
inductive TaskPriority where
  | critical | high | normal | low
deriving Repr, DecidableEq

/-- The slice of `Task` relevant to queue ordering. -/
structure Task where
  id : Nat
  status : TaskStatus
  priority : TaskPriority
  createdAt : Nat
  updatedAt : Nat
deriving Repr, DecidableEq

/-- The `priorityOrder` table of `getNextPendingTask` (the `?? 2` default
for unknown strings is unreachable with a typed priority). -/
def priorityOrder : TaskPriority → Nat
  | .critical => 0
  | .high => 1
  | .normal => 2
  | .low => 3

/-- `getAllTasks`: all tasks sorted by `updatedAt` DESCENDING. `tasks` is
the in-memory index in insertion order. -/
def getAllTasks (tasks : List Task) : List Task :=
  tasks.mergeSort (fun a b => b.updatedAt ≤ a.updatedAt)

/-- `getTasksByStatus`. -/
def getTasksByStatus (tasks : List Task) (status : TaskStatus) : List Task :=
  (getAllTasks tasks).filter (fun t => t.status = status)

/-- `getNextPendingTask`: sort the pending tasks (already in `updatedAt`
descending order from `getAllTasks`) by priority rank with a stable sort
and take the first. -/
def getNextPendingTask (tasks : List Task) : Option Task :=
  ((getTasksByStatus tasks .pending).mergeSort
    (fun a b => priorityOrder a.priority ≤ priorityOrder b.priority)).head?

end Queue

/-! ## run_shell child environment (tools/registry.ts, run_shell handler)

The handler builds the child environment as
`{...process.env, HOME: workspace, ANTHROPIC_API_KEY: undefined,
OPENAI_API_KEY: undefined, TELEGRAM_BOT_TOKEN: undefined,
DISCORD_BOT_TOKEN: undefined}`; Node `child_process` omits entries whose
value is `undefined`, so exactly those four variables are removed and
`HOME` is overwritten. Environments are association lists in property
order. -/

namespace Shell

/-- The four variable names the `run_shell` handler sets to `undefined`. -/
def STRIPPED_VARS : List String :=
  ["ANTHROPIC_API_KEY", "OPENAI_API_KEY", "TELEGRAM_BOT_TOKEN", "DISCORD_BOT_TOKEN"]

/-- Property assignment on an environment: update the existing binding in
place, append when absent. -/
def envSet : List (String × String) → String → String → List (String × String)
  | [], k, v => [(k, v)]
  | (k', v') :: rest, k, v =>
    if k' = k then (k, v) :: rest else (k', v') :: envSet rest k v

/-- The child environment `run_shell` passes to `exec`: the host
environment with `HOME` set to the workspace and the four fixed variables
of `STRIPPED_VARS` removed. -/
def childEnv (hostEnv : List (String × String)) (workspace : String) :
    List (String × String) :=
  envSet (hostEnv.filter (fun kv => ¬ STRIPPED_VARS.contains kv.1)) "HOME" workspace

/-- Whether a variable name matches one of the glob patterns
`*_API_KEY`, `*_TOKEN`, `*_BOT_TOKEN` named by the specification. -/
def matchesSensitivePattern (name : String) : Bool :=
  Str.endsWith name "_API_KEY" ∨ Str.endsWith name "_TOKEN" ∨ Str.endsWith name "_BOT_TOKEN"

/-- Modelled from the spec (for comparison with `childEnv`): the claimed
child environment, namely the host environment with every variable whose
name matches a sensitive pattern removed and all other variables
unchanged. -/
def childEnvSpec (hostEnv : List (String × String)) : List (String × String) :=
  hostEnv.filter (fun kv => ¬ matchesSensitivePattern kv.1)

end Shell

/-! ## Tool registry and category permissions (tools/registry.ts,
gateway/agent.ts, tools/email.ts)

`registerTool` inserts into a `Map` in module-load order and
`getToolDefinitions` returns every registered definition;
`processMessage` passes that list to `callLLM` unfiltered. Category
permissions appear only inside the handlers: the integration modules
guard execution with `isToolAllowed` and throw `SecurityError`. -/

namespace Tools

/-- A registered tool definition (the registry key is the name). -/
structure ToolDefinition where
  name : String
deriving Repr, DecidableEq

/-- `getToolDefinitions` from tools/registry.ts: every registered
definition, unfiltered. -/
def getToolDefinitions (registry : List ToolDefinition) : List ToolDefinition :=
  registry

/-- The tool-category permission switches of `RuntimeSettings`. -/
structure ToolPermissions where
  shell : Bool
  fileRead : Bool
  fileWrite : Bool
  webFetch : Bool
  browser : Bool
  email : Bool
  socialMedia : Bool
  systemControl : Bool
deriving Repr, DecidableEq

/-- The guarded category of a tool, read off the source module that
registers it: tools/email.ts guards with `isToolAllowed("email")`,
tools/social.ts with `"socialMedia"`, tools/system.ts with
`"systemControl"`; the remaining built-ins carry no category guard. -/
def toolCategory (name : String) : Option String :=
  if name = "email_read" ∨ name = "email_send" ∨ name = "email_search" then
    some "email"
  else if name = "github_repos" ∨ name = "github_issues" ∨ name = "github_pr" ∨
      name = "mastodon_timeline" ∨ name = "mastodon_post" ∨
      name = "mastodon_notifications" ∨ name = "reddit_read" ∨
      name = "reddit_post" ∨ name = "reddit_inbox" then
    some "socialMedia"
  else if name = "clipboard_read" ∨ name = "clipboard_write" ∨
      name = "send_notification" ∨ name = "open_application" ∨
      name = "list_processes" ∨ name = "system_info" ∨ name = "open_url" ∨
      name = "take_screenshot" then
    some "systemControl"
  else none

/-- Whether a category is enabled under the given permissions. -/
def categoryEnabled (perms : ToolPermissions) : Option String → Bool
  | some "email" => perms.email
  | some "socialMedia" => perms.socialMedia
  | some "systemControl" => perms.systemControl
  | _ => true

/-- The tools `processMessage` in gateway/agent.ts passes to the LLM on a
turn: `getToolDefinitions()`, with no permission filtering. -/
def toolsOfferedToLLM (registry : List ToolDefinition) (_perms : ToolPermissions) :
    List ToolDefinition :=
  getToolDefinitions registry

/-- Modelled from the spec (for comparison with `toolsOfferedToLLM`): the
registry filtered by the runtime tool-category permissions. -/
def toolsOfferedSpec (registry : List ToolDefinition) (perms : ToolPermissions) :
    List ToolDefinition :=
  registry.filter (fun d => categoryEnabled perms (toolCategory d.name))

/-- `guardEmail` from tools/email.ts: the execution-time check every
email tool handler runs first. `emailConfigured` abbreviates the
credential presence check on `integrations.email`. -/
def guardEmail (perms : ToolPermissions) (emailConfigured : Bool) :
    Except String Unit :=
  if ¬ perms.email then
    .error "Email tools are disabled. Enable in admin dashboard and configure IMAP/SMTP credentials."
  else if ¬ emailConfigured then
    .error "Email not configured. Set IMAP/SMTP credentials in admin dashboard."
  else .ok ()

end Tools

/-! ## Approval broker (tasks/approvals.ts)

The lifecycle of one approval request is a state machine: `requestApproval`
creates a pending request, registers a waiter in the `waiters` map, and
arms a single-shot 30-minute timer; `resolveApproval` settles a pending
request and wakes the waiter if present; the timer callback expires a
still-pending request and resolves its promise with `false`. A JavaScript
promise settles at most once; `futureResult` records the settled value of
the future returned by `requestApproval` (`none` while still pending). -/

namespace Approvals

/-- Approval status values. -/
inductive ApprovalStatus where
  | pending | approved | rejected | expired
deriving Repr, DecidableEq

/-- Resolver decisions accepted by `resolveApproval`. -/
inductive Decision where
  | approved | rejected
deriving Repr, DecidableEq

/-- The state of one approval request: its persisted status, whether the
`waiters` map still holds its waiter, and the settled value of the future
returned by `requestApproval`. -/
structure ApprState where
  status : ApprovalStatus
  waiterPresent : Bool
  futureResult : Option Bool
deriving Repr, DecidableEq

/-- The state `requestApproval` leaves behind: a pending request with a
registered waiter and an unsettled future. -/
def requestApprovalState : ApprState :=
  ⟨.pending, true, none⟩

/-- `resolveApproval` from tasks/approvals.ts on one request. Returns the
request on success (modelled by the decision) and the new state. A request
that is no longer pending is returned as `none` with nothing changed.
Otherwise the status becomes the decision and, if a waiter is registered,
its timer is cleared, the future settles to `decision == "approved"`, and
the waiter is removed. -/
def resolveApproval (d : Decision) (s : ApprState) : Option Decision × ApprState :=
  if s.status ≠ .pending then (none, s)
  else
    let newStatus : ApprovalStatus :=
      match d with
      | .approved => .approved
      | .rejected => .rejected
    (some d,
      { status := newStatus,
        waiterPresent := false,
        futureResult :=
          if s.waiterPresent then some (d = .approved) else s.futureResult })

/-- The 30-minute timeout callback from `requestApproval`: if the request
is still pending it is marked expired and the promise is resolved with
`false` (the `resolve` closure settles the future directly); in either
case the waiter entry is deleted. -/
def timerFire (s : ApprState) : ApprState :=
  if s.status = .pending then
    { status := .expired, waiterPresent := false, futureResult := some false }
  else
    { s with waiterPresent := false }

/-- Events that can act on an approval request after creation. -/
inductive ApprovalOp where
  | resolve (d : Decision)
  | timer
deriving Repr, DecidableEq

/-- State transition of one event. -/
def stepApproval : ApprovalOp → ApprState → ApprState
  | .resolve d, s => (resolveApproval d s).2
  | .timer, s => timerFire s

/-- Run a sequence of events from a state. -/
def runApproval (ops : List ApprovalOp) (s : ApprState) : ApprState :=
  ops.foldl (fun st op => stepApproval op st) s

/-- A state reachable from a fresh `requestApproval`. -/
def ReachableApproval (s : ApprState) : Prop :=
  ∃ ops : List ApprovalOp, s = runApproval ops requestApprovalState

end Approvals

/-! ## Orchestrator planning (orchestrator/planner.ts, planTask and the
dependency check of executePlan)

`planTask` asks the LLM for a JSON plan; `parsed` below is the result of
that parse (`none` when no JSON object could be extracted, in which case
a single-subtask fallback plan is built). The identifier supply `uuid`
makes the `uuid()` calls explicit: subtask `i` receives `uuid i` and the
plan receives the next one. JavaScript `||` defaults apply to the parsed
fields, so falsy values (empty strings, complexity 0) fall back too. -/

namespace Orchestrator

/-- One entry of the `subtasks` array in the planning LLM response, after
JSON parsing. `dependsOn` is the list of titles the LLM declared as
prerequisites. -/
structure RawSubtask where
  title : String
  description : String
  role : Option String
  modelTier : Option String
  parallelGroup : Option String
  complexity : Option Nat
  requiresPrivacy : Option Bool
  dependsOn : List String
deriving Repr, DecidableEq

/-- A `PlannedSubtask` as built by `planTask`. Note there is no
`dependsOn` field: the mapping from the parsed response drops it. -/
structure PlannedSubtask where
  id : String
  title : String
  description : String
  role : String
  modelTier : String
  parallelGroup : Option String
  complexity : Nat
  requiresPrivacy : Bool
deriving Repr, DecidableEq

/-- An `OrchestratorPlan` as built by `planTask`. -/
structure OrchestratorPlan where
  id : String
  parentTaskId : String
  objective : String
  subtasks : List PlannedSubtask
  dependencies : List (String × List String)
deriving Repr, DecidableEq

/-- JavaScript `x || default` on an optional string: `undefined` and the
empty string both fall back. -/
def jsOrStr (o : Option String) (d : String) : String :=
  match o with
  | some s => if s = "" then d else s
  | none => d

/-- JavaScript `x || default` on an optional number: `undefined` and `0`
both fall back. -/
def jsOrNat (o : Option Nat) (d : Nat) : Nat :=
  match o with
  | some n => if n = 0 then d else n
  | none => d

/-- The subtask list `planTask` builds: the parsed entries with defaults
applied and a fresh id each (and no `dependsOn`), or the single-subtask
fallback when parsing failed. -/
def mkSubtasks (uuid : Nat → String) (parsed : Option (List RawSubtask))
    (taskTitle taskDescription : String) : List PlannedSubtask :=
  match parsed with
  | some raws =>
    raws.enum.map (fun pr =>
      { id := uuid pr.1,
        title := pr.2.title,
        description := pr.2.description,
        role := jsOrStr pr.2.role "executor",
        modelTier := jsOrStr pr.2.modelTier "balanced",
        parallelGroup := pr.2.parallelGroup,
        complexity := jsOrNat pr.2.complexity 5,
        requiresPrivacy := (pr.2.requiresPrivacy).getD false })
  | none =>
    [{ id := uuid 0, title := taskTitle, description := taskDescription,
       role := "executor", modelTier := "balanced", parallelGroup := none,
       complexity := 5, requiresPrivacy := false }]

/-- The plan `planTask` returns: after building the subtasks it
initializes `dependencies[st.id] = []` for every subtask and never
populates the lists (the parsed `dependsOn` fields are not copied). -/
def planTask (uuid : Nat → String) (parsed : Option (List RawSubtask))
    (parentTaskId taskTitle taskDescription : String) : OrchestratorPlan :=
  let subtasks := mkSubtasks uuid parsed taskTitle taskDescription
  { id := uuid subtasks.length,
    parentTaskId := parentTaskId,
    objective := taskDescription,
    subtasks := subtasks,
    dependencies := subtasks.map (fun st => (st.id, ([] : List String))) }

/-- Dependency-map lookup, as `dependencies[st.id]`. -/
def depsLookup (deps : List (String × List String)) (id : String) :
    Option (List String) :=
  (deps.find? (fun kv => kv.1 = id)).map (fun kv => kv.2)

/-- The unmet-dependency computation of `executePlan`:
`(dependencies[st.id] || []).filter(d => !completed.has(d))`. A subtask
with a nonempty result would trigger the soft warning. -/
def unmetDeps (plan : OrchestratorPlan) (completed : List String)
    (st : PlannedSubtask) : List String :=
  ((depsLookup plan.dependencies st.id).getD []).filter
    (fun d => ¬ completed.contains d)

end Orchestrator

/-! ## Theorems -/

/-- C1: counterexample on the code. The claim states that a patch carrying
a dangerous pair without its confirmation token never installs the
dangerous value and applies only the safe subset, regardless of safe keys
in the same patch. With the mixed patch
`agentName := "X", sandboxEnabled := false` and no token, `updateSettings`
reports `sandboxEnabled` as requiring confirmation, yet deep-merges the
ENTIRE patch: afterwards the current settings hold
`sandboxEnabled = false` and both keys are reported as applied. -/
theorem C1_updateSettings_unconfirmed_dangerous_value_applied :
    Settings.lookup (Settings.updateSettings (fun _ => "tok0") Settings.DEFAULTS
        [("agentName", Settings.JVal.str "X"),
         ("sandboxEnabled", Settings.JVal.bool false)] none).current
      "sandboxEnabled" = some (Settings.JVal.bool false) ∧
    (Settings.updateSettings (fun _ => "tok0") Settings.DEFAULTS
        [("agentName", Settings.JVal.str "X"),
         ("sandboxEnabled", Settings.JVal.bool false)] none).requiresConfirm =
      ["sandboxEnabled → false: Disabling sandbox allows unrestricted shell commands"] ∧
    (Settings.updateSettings (fun _ => "tok0") Settings.DEFAULTS
        [("agentName", Settings.JVal.str "X"),
         ("sandboxEnabled", Settings.JVal.bool false)] none).applied =
      ["agentName", "sandboxEnabled"] := by
  refine ⟨?_, ?_, ?_⟩ <;>
    simp [Settings.updateSettings, Settings.flattenForCheck, Settings.deepMerge,
      Settings.mergeVal, Settings.setField, Settings.lookup, Settings.dangerousReason,
      Settings.DANGEROUS_KEYS, Settings.DEFAULTS, Settings.jvalString, List.find?]

/-- C2: `validateURL` on the listed inputs. The seven literal-IP, `file`
and `gopher` URLs all raise `SecurityError`, and a hostname resolving to
a public address is accepted — but `http://[::1]` is ACCEPTED: its WHATWG
hostname is the bracketed string, which `net.isIP` does not recognize, so
the code falls into the DNS branch, the lookup of a bracketed name fails,
and DNS failures are allowed through. The explicit `"::1"` arm of
`isBlockedIP` shows the intended outcome. -/
theorem C2_validateURL_blocklist_and_ipv6_loopback_bypass :
    Guard.isSecurityError (Guard.validateURL (fun _ => none) "http://127.0.0.1") = true ∧
    Guard.isSecurityError (Guard.validateURL (fun _ => none) "http://169.254.169.254") = true ∧
    Guard.isSecurityError (Guard.validateURL (fun _ => none) "http://10.0.0.1") = true ∧
    Guard.isSecurityError (Guard.validateURL (fun _ => none) "http://172.20.1.1") = true ∧
    Guard.isSecurityError (Guard.validateURL (fun _ => none) "http://192.168.0.1") = true ∧
    Guard.isSecurityError (Guard.validateURL (fun _ => none) "file:///etc/passwd") = true ∧
    Guard.isSecurityError (Guard.validateURL (fun _ => none) "gopher://x") = true ∧
    Guard.validateURL
        (fun h => if h = "example.com" then some ["93.184.216.34"] else none)
        "https://example.com" = Except.ok ⟨"https", "example.com"⟩ ∧
    Guard.isBlockedIP "::1" = true ∧
    Guard.validateURL (fun _ => none) "http://[::1]" =
      Except.ok ⟨"http", "[::1]"⟩ := by
  exact ⟨rfl, rfl, rfl, rfl, rfl, rfl, rfl, rfl, rfl, rfl⟩

/-- C3: `safePath` either raises `SecurityError` or returns a path that is
exactly the (normalized, absolute) workspace root or starts with the root
followed by the separator; inputs containing a NUL byte always raise. The
`Except` result type makes these the only outcomes. -/
theorem C3_safePath_containment :
    (∀ cwd ws p r, Guard.safePath cwd ws p = Except.ok r →
      r = NodePath.normalize (NodePath.resolve cwd [ws]) ∨
        Str.startsWith r (NodePath.normalize (NodePath.resolve cwd [ws]) ++ "/") = true) ∧
    (∀ cwd ws p, p.toList.contains (Char.ofNat 0) = true →
      ∃ e, Guard.safePath cwd ws p = Except.error e) := by
  constructor
  · intro cwd ws p r h
    unfold Guard.safePath at h
    split at h
    · exact Except.noConfusion h
    · dsimp only at h
      split at h <;>
        (split at h
         · rename_i hc
           injection h with h'
           subst h'
           exact Or.symm hc
         · exact Except.noConfusion h)
  · intro cwd ws p hp
    refine ⟨"Path contains null bytes", ?_⟩
    unfold Guard.safePath
    rw [if_pos hp]

/-- C3 witness: the containment theorem applied to the concrete inputs
`safePath "/home" "/ws" "docs/a.txt" = ok "/ws/docs/a.txt"` and a path
holding a NUL byte. -/
theorem C3_safePath_containment_witness :
    ("/ws/docs/a.txt" = NodePath.normalize (NodePath.resolve "/home" ["/ws"]) ∨
      Str.startsWith "/ws/docs/a.txt"
        (NodePath.normalize (NodePath.resolve "/home" ["/ws"]) ++ "/") = true) ∧
    (∃ e, Guard.safePath "/home" "/ws" (String.mk [Char.ofNat 0, 'a']) =
      Except.error e) :=
  ⟨C3_safePath_containment.1 "/home" "/ws" "docs/a.txt" "/ws/docs/a.txt" rfl,
   C3_safePath_containment.2 "/home" "/ws" (String.mk [Char.ofNat 0, 'a']) rfl⟩

/-- C4: counterexample on the code. The claim states the tools offered to
the LLM are the registry filtered by tool-category permissions. With the
email category disabled, a registered `email_send` tool is nevertheless in
the list `processMessage` passes to the LLM (`getToolDefinitions` returns
the whole registry), although the claimed filtering would drop it. -/
theorem C4_disabled_category_tool_still_offered :
    Tools.ToolDefinition.mk "email_send" ∈
      Tools.toolsOfferedToLLM [⟨"read_file"⟩, ⟨"email_send"⟩]
        ⟨true, true, true, true, true, false, false, false⟩ ∧
    Tools.toolCategory "email_send" = some "email" ∧
    Tools.ToolPermissions.email
      ⟨true, true, true, true, true, false, false, false⟩ = false ∧
    Tools.ToolDefinition.mk "email_send" ∉
      Tools.toolsOfferedSpec [⟨"read_file"⟩, ⟨"email_send"⟩]
        ⟨true, true, true, true, true, false, false, false⟩ := by
  refine ⟨by decide, rfl, rfl, by decide⟩

/-- C4 amended: the session loop passes the FULL registry contents to the
LLM on every turn, ignoring the runtime tool-category permissions; the
permissions are enforced at execution time instead — the handler of a
disabled-category tool (here the email guard shared by every email tool)
raises `SecurityError` before doing any work. -/
theorem C4_tools_offered_unfiltered_guard_at_execution :
    (∀ registry perms,
      Tools.toolsOfferedToLLM registry perms = Tools.getToolDefinitions registry) ∧
    (∀ perms emailConfigured, perms.email = false →
      Tools.guardEmail perms emailConfigured = Except.error
        "Email tools are disabled. Enable in admin dashboard and configure IMAP/SMTP credentials.") := by
  constructor
  · intro registry perms
    rfl
  · intro perms emailConfigured h
    simp [Tools.guardEmail, h]

/-- C4 witness: the amended theorem applied to a two-tool registry and to
permissions with the email category disabled. -/
theorem C4_tools_offered_unfiltered_witness :
    Tools.toolsOfferedToLLM [⟨"read_file"⟩, ⟨"email_send"⟩]
        ⟨true, true, true, true, true, false, false, false⟩ =
      Tools.getToolDefinitions [⟨"read_file"⟩, ⟨"email_send"⟩] ∧
    Tools.guardEmail ⟨true, true, true, true, true, false, false, false⟩ true =
      Except.error
        "Email tools are disabled. Enable in admin dashboard and configure IMAP/SMTP credentials." :=
  ⟨C4_tools_offered_unfiltered_guard_at_execution.1 [⟨"read_file"⟩, ⟨"email_send"⟩]
      ⟨true, true, true, true, true, false, false, false⟩,
   C4_tools_offered_unfiltered_guard_at_execution.2
      ⟨true, true, true, true, true, false, false, false⟩ true rfl⟩

/-- C5: counterexample on the code. Two pending `normal`-priority tasks:
task 1 created and updated at time 1, task 2 created and updated at time
2. The claim demands the earliest-created task (task 1). But
`getNextPendingTask` sorts the output of `getAllTasks` — which orders by
`updatedAt` DESCENDING — stably by priority alone, so the priority tie is
broken towards the most recently updated task and task 2 is returned. -/
theorem C5_getNextPendingTask_tie_not_broken_by_creation :
    Queue.getNextPendingTask
        [⟨1, .pending, .normal, 1, 1⟩, ⟨2, .pending, .normal, 2, 2⟩] =
      some ⟨2, .pending, .normal, 2, 2⟩ ∧
    Queue.TaskPriority.normal = Queue.TaskPriority.normal ∧
    (1 : Nat) < 2 := by
  refine ⟨?_, rfl, by norm_num⟩
  simp [Queue.getNextPendingTask, Queue.getTasksByStatus, Queue.getAllTasks,
    Queue.priorityOrder, List.mergeSort]

/-- C5 amended: whenever some task is pending, `getNextPendingTask`
returns a pending task of minimal priority rank (critical=0, high=1,
normal=2, low=3); ties within a priority are broken towards the task
ordered first by `getAllTasks`, i.e. the most recently UPDATED task, not
the earliest created one. -/
theorem C5_getNextPendingTask_min_priority (tasks : List Queue.Task)
    (hp : ∃ u ∈ tasks, u.status = .pending) :
    ∃ t, Queue.getNextPendingTask tasks = some t ∧ t.status = .pending ∧
      t ∈ tasks ∧
      ∀ u ∈ tasks, u.status = .pending →
        Queue.priorityOrder t.priority ≤ Queue.priorityOrder u.priority := by
  classical
  obtain ⟨u, hu, hus⟩ := hp
  set P := Queue.getTasksByStatus tasks .pending with hP
  have hmemP : ∀ v : Queue.Task, v ∈ P ↔ v ∈ tasks ∧ v.status = .pending := by
    intro v
    simp [hP, Queue.getTasksByStatus, Queue.getAllTasks, List.mem_filter,
      List.mem_mergeSort]
  set le : Queue.Task → Queue.Task → Bool :=
    fun a b => Queue.priorityOrder a.priority ≤ Queue.priorityOrder b.priority with hle
  set S := P.mergeSort le with hS
  have hmemS : ∀ v : Queue.Task, v ∈ S ↔ v ∈ P := by
    intro v; simp [hS, List.mem_mergeSort]
  have hSne : S ≠ [] := by
    intro hnil
    have hmem : u ∈ S := (hmemS u).2 ((hmemP u).2 ⟨hu, hus⟩)
    simp [hnil] at hmem
  obtain ⟨t, tail, hcons⟩ := List.exists_cons_of_ne_nil hSne
  have hsorted : List.Pairwise (fun a b => le a b = true) S := by
    refine List.sorted_mergeSort ?_ ?_ P
    · intro a b c hab hbc
      simp only [hle, decide_eq_true_eq] at hab hbc ⊢
      omega
    · intro a b
      simp only [hle, Bool.or_eq_true, decide_eq_true_eq]
      omega
  have htP : t ∈ P := (hmemS t).1 (by simp [hcons])
  refine ⟨t, ?_, ((hmemP t).1 htP).2, ((hmemP t).1 htP).1, ?_⟩
  · simp [Queue.getNextPendingTask, ← hP, ← hle, ← hS, hcons]
  · intro v hv hvs
    have hvS : v ∈ S := (hmemS v).2 ((hmemP v).2 ⟨hv, hvs⟩)
    rw [hcons] at hvS hsorted
    rcases List.mem_cons.1 hvS with rfl | hvtail
    · exact le_refl _
    · have h2 := (List.pairwise_cons.1 hsorted).1 v hvtail
      simpa [hle, decide_eq_true_eq] using h2

/-- C5 witness: the amended theorem applied to a concrete queue holding a
pending low-priority task and a pending critical one. -/
theorem C5_getNextPendingTask_min_priority_witness :
    ∃ t, Queue.getNextPendingTask
        [⟨1, .pending, .low, 1, 1⟩, ⟨2, .pending, .critical, 2, 2⟩] = some t ∧
      t.status = .pending ∧
      t ∈ [⟨1, .pending, .low, 1, 1⟩, ⟨2, .pending, .critical, 2, 2⟩] ∧
      ∀ u ∈ [(⟨1, .pending, .low, 1, 1⟩ : Queue.Task),
             ⟨2, .pending, .critical, 2, 2⟩], u.status = .pending →
        Queue.priorityOrder t.priority ≤ Queue.priorityOrder u.priority :=
  C5_getNextPendingTask_min_priority
    [⟨1, .pending, .low, 1, 1⟩, ⟨2, .pending, .critical, 2, 2⟩]
    ⟨⟨1, .pending, .low, 1, 1⟩, by simp, rfl⟩

/-- Membership in `envSet`: the assigned pair is present. -/
theorem envSet_mem_self (l : List (String × String)) (k v : String) :
    (k, v) ∈ Shell.envSet l k v := by
  induction l with
  | nil => simp [Shell.envSet]
  | cons kv rest ih =>
    by_cases h : kv.1 = k
    · simp [Shell.envSet, h]
    · simp only [Shell.envSet]
      rw [if_neg h]
      exact List.mem_cons_of_mem _ ih

/-- Membership in `envSet` for other keys is untouched. -/
theorem envSet_mem_preserve (l : List (String × String)) (key w k v : String)
    (hk : k ≠ key) : ((k, v) ∈ Shell.envSet l key w ↔ (k, v) ∈ l) := by
  induction l with
  | nil => simp [Shell.envSet, hk]
  | cons kv rest ih =>
    by_cases h : kv.1 = key
    · simp only [Shell.envSet, h, if_pos rfl]
      constructor
      · intro hm
        rcases List.mem_cons.1 hm with he | hm2
        · exact absurd (congrArg Prod.fst he) hk
        · exact List.mem_cons_of_mem _ hm2
      · intro hm
        rcases List.mem_cons.1 hm with he | hm2
        · exact absurd (h ▸ congrArg Prod.fst he) hk
        · exact List.mem_cons_of_mem _ hm2
    · simp only [Shell.envSet]
      rw [if_neg h]
      simp [ih]

/-- Every pair in `envSet l key w` came from `l` or is the assignment. -/
theorem envSet_mem_of (l : List (String × String)) (key w k v : String)
    (h : (k, v) ∈ Shell.envSet l key w) : (k, v) ∈ l ∨ (k, v) = (key, w) := by
  induction l with
  | nil => simp [Shell.envSet] at h; simp [h]
  | cons kv rest ih =>
    by_cases hk : kv.1 = key
    · simp only [Shell.envSet, hk, if_pos rfl] at h
      rcases List.mem_cons.1 h with he | hm
      · exact Or.inr he
      · exact Or.inl (List.mem_cons_of_mem _ hm)
    · simp only [Shell.envSet] at h
      rw [if_neg hk] at h
      rcases List.mem_cons.1 h with he | hm
      · exact Or.inl (List.mem_cons.2 (Or.inl he))
      · rcases ih hm with h1 | h2
        · exact Or.inl (List.mem_cons_of_mem _ h1)
        · exact Or.inr h2

/-- C6: counterexample on the code. The claim states EVERY variable
matching `*_API_KEY`, `*_TOKEN` or `*_BOT_TOKEN` is removed from the
child environment, not only a fixed list. `GITHUB_TOKEN` matches
`*_TOKEN`, but the `run_shell` handler only sets the four hard-coded
names to `undefined`, so `GITHUB_TOKEN` is inherited by the child (and
`HOME` is additionally overwritten with the workspace, so not all other
variables are unchanged either). -/
theorem C6_run_shell_env_fixed_list_only :
    Shell.childEnv [("GITHUB_TOKEN", "x"), ("PATH", "/usr/bin")] "/ws" =
      [("GITHUB_TOKEN", "x"), ("PATH", "/usr/bin"), ("HOME", "/ws")] ∧
    Shell.matchesSensitivePattern "GITHUB_TOKEN" = true ∧
    ("GITHUB_TOKEN", "x") ∉
      Shell.childEnvSpec [("GITHUB_TOKEN", "x"), ("PATH", "/usr/bin")] := by
  refine ⟨rfl, rfl, by decide⟩

/-- C6 amended: the child environment of `run_shell` equals the host
environment with exactly the four fixed variables `ANTHROPIC_API_KEY`,
`OPENAI_API_KEY`, `TELEGRAM_BOT_TOKEN`, `DISCORD_BOT_TOKEN` removed and
`HOME` set to the workspace; every other host variable is passed through
unchanged and nothing else is added. Variables matching the wildcard
patterns but outside that list (such as `GITHUB_TOKEN`) are inherited. -/
theorem C6_run_shell_child_env_exact (env : List (String × String)) (ws : String) :
    (∀ k v, (k, v) ∈ env → ¬ k ∈ Shell.STRIPPED_VARS → k ≠ "HOME" →
      (k, v) ∈ Shell.childEnv env ws) ∧
    (∀ k v, k ∈ Shell.STRIPPED_VARS → (k, v) ∉ Shell.childEnv env ws) ∧
    ("HOME", ws) ∈ Shell.childEnv env ws ∧
    (∀ k v, (k, v) ∈ Shell.childEnv env ws →
      ((k, v) ∈ env ∧ ¬ k ∈ Shell.STRIPPED_VARS) ∨ (k, v) = ("HOME", ws)) := by
  refine ⟨?_, ?_, ?_, ?_⟩
  · intro k v hm hns hnh
    unfold Shell.childEnv
    rw [envSet_mem_preserve _ _ _ _ _ hnh]
    simp only [List.mem_filter]
    exact ⟨hm, by simpa using hns⟩
  · intro k v hs hm
    have hkh : k ≠ "HOME" := by
      simp only [Shell.STRIPPED_VARS, List.mem_cons, List.not_mem_nil,
        or_false] at hs
      rcases hs with rfl | rfl | rfl | rfl <;> decide
    unfold Shell.childEnv at hm
    rw [envSet_mem_preserve _ _ _ _ _ hkh] at hm
    have h2 := (List.mem_filter.1 hm).2
    simp [hs] at h2
  · exact envSet_mem_self _ _ _
  · intro k v hm
    unfold Shell.childEnv at hm
    rcases envSet_mem_of _ _ _ _ _ hm with h1 | h2
    · have h3 := List.mem_filter.1 h1
      exact Or.inl ⟨h3.1, by simpa using h3.2⟩
    · exact Or.inr h2

/-- C6 witness: the exact-environment theorem applied to a concrete host
environment containing a stripped key, a kept key, and a sensitive-looking
but unstripped key. -/
theorem C6_run_shell_child_env_exact_witness :
    ("PATH", "/usr/bin") ∈
      Shell.childEnv
        [("OPENAI_API_KEY", "s"), ("PATH", "/usr/bin"), ("GITHUB_TOKEN", "x")] "/ws" ∧
    ("OPENAI_API_KEY", "s") ∉
      Shell.childEnv
        [("OPENAI_API_KEY", "s"), ("PATH", "/usr/bin"), ("GITHUB_TOKEN", "x")] "/ws" ∧
    ("HOME", "/ws") ∈
      Shell.childEnv
        [("OPENAI_API_KEY", "s"), ("PATH", "/usr/bin"), ("GITHUB_TOKEN", "x")] "/ws" :=
  ⟨(C6_run_shell_child_env_exact
      [("OPENAI_API_KEY", "s"), ("PATH", "/usr/bin"), ("GITHUB_TOKEN", "x")] "/ws").1
    "PATH" "/usr/bin" (by simp) (by decide) (by decide),
   (C6_run_shell_child_env_exact
      [("OPENAI_API_KEY", "s"), ("PATH", "/usr/bin"), ("GITHUB_TOKEN", "x")] "/ws").2.1
    "OPENAI_API_KEY" "s" (by decide),
   (C6_run_shell_child_env_exact
      [("OPENAI_API_KEY", "s"), ("PATH", "/usr/bin"), ("GITHUB_TOKEN", "x")] "/ws").2.2.1⟩

/-- C7: counterexample on the code. The claim states every 1-byte
deviation — changed, inserted, or removed byte — is rejected with a 401.
A candidate with one byte INSERTED has a different buffer length, so
`crypto.timingSafeEqual` throws a `RangeError` instead of returning
false; the middleware has no try/catch, so Express answers 500, not 401
(the request is still not accepted). -/
theorem C7_length_mismatch_gives_500_not_401 :
    Guard.authMiddleware true (some [97]) (some [97, 98]) =
      Guard.GatewayOutcome.serverError ∧
    Guard.GatewayOutcome.serverError ≠ Guard.GatewayOutcome.unauthorized := by
  exact ⟨rfl, by decide⟩

/-- C7 amended: with auth enabled and a nonempty stored token, the exact
token passes; a same-length candidate that differs in some byte (in
particular a 1-byte change) is rejected with 401; a candidate of
different length (a 1-byte insertion or removal) makes `timingSafeEqual`
throw and the gateway answers 500; in every case a candidate different
from the stored token is never accepted. -/
theorem C7_token_comparison_exact (s t : List Nat) (hs : s ≠ []) :
    (Guard.authMiddleware true (some s) (some s) = .pass) ∧
    (t ≠ [] → t.length = s.length → t ≠ s →
      Guard.authMiddleware true (some s) (some t) = .unauthorized) ∧
    (t ≠ [] → t.length ≠ s.length →
      Guard.authMiddleware true (some s) (some t) = .serverError) ∧
    (t ≠ s → Guard.authMiddleware true (some s) (some t) ≠ .pass) := by
  refine ⟨?_, ?_, ?_, ?_⟩
  · simp [Guard.authMiddleware, Guard.validateGatewayToken, Guard.timingSafeEqual, hs]
  · intro ht hlen hne
    simp [Guard.authMiddleware, Guard.validateGatewayToken, Guard.timingSafeEqual,
      hs, ht, hlen, hne]
  · intro ht hlen
    simp [Guard.authMiddleware, Guard.validateGatewayToken, Guard.timingSafeEqual,
      hs, ht, hlen]
  · intro hne
    by_cases ht : t = []
    · simp [Guard.authMiddleware, Guard.validateGatewayToken, ht, hs]
    · by_cases hlen : t.length = s.length
      · simp [Guard.authMiddleware, Guard.validateGatewayToken,
          Guard.timingSafeEqual, hs, ht, hlen, hne]
      · simp [Guard.authMiddleware, Guard.validateGatewayToken,
          Guard.timingSafeEqual, hs, ht, hlen]

/-- C7 witness: the comparison theorem applied to the stored token
`[97, 98]`, the exact candidate, and the 1-byte-changed candidate
`[97, 99]`. -/
theorem C7_token_comparison_exact_witness :
    Guard.authMiddleware true (some [97, 98]) (some [97, 98]) = .pass ∧
    Guard.authMiddleware true (some [97, 98]) (some [97, 99]) = .unauthorized :=
  ⟨(C7_token_comparison_exact [97, 98] [97, 99] (by decide)).1,
   (C7_token_comparison_exact [97, 98] [97, 99] (by decide)).2.1
     (by decide) (by decide) (by decide)⟩

/-- Splitting a run of `checkRateLimit` calls. -/
theorem checkRateLimitN_append (now : Rat) (key : String) (cap rate : Rat)
    (a b : Nat) (st : Guard.BucketMap) :
    Guard.checkRateLimitN now key cap rate (a + b) st =
      ((Guard.checkRateLimitN now key cap rate a st).1 ++
        (Guard.checkRateLimitN now key cap rate b
          (Guard.checkRateLimitN now key cap rate a st).2).1,
       (Guard.checkRateLimitN now key cap rate b
          (Guard.checkRateLimitN now key cap rate a st).2).2) := by
  induction a generalizing st with
  | zero =>
    rw [Nat.zero_add]
    simp only [Guard.checkRateLimitN, List.nil_append]
  | succ n ih =>
    have hadd : n + 1 + b = (n + b) + 1 := by omega
    rw [hadd]
    simp only [Guard.checkRateLimitN]
    rw [ih]
    simp only [List.cons_append]

/-- A call with no time elapsed (the bucket was already stamped `now`)
reduces to: refill nothing, consume one token if at least one whole token
is available. -/
theorem checkRateLimit_same_instant (now : Rat) (key : String) (cap rate : Rat)
    (b : Guard.Bucket) (st : Guard.BucketMap)
    (hget : Guard.bucketGet st key = some b)
    (hlr : b.lastRefill = now) (hcap : b.tokens ≤ cap) :
    Guard.checkRateLimit now key cap rate st =
      if b.tokens < 1 then (false, Guard.bucketSet st key ⟨b.tokens, now⟩)
      else (true, Guard.bucketSet st key ⟨b.tokens - 1, now⟩) := by
  simp [Guard.checkRateLimit, hget, hlr, min_eq_right hcap]

/-- Writing back the value already stored leaves the map unchanged. -/
theorem bucketSet_self (st : Guard.BucketMap) (key : String) (b : Guard.Bucket)
    (h : Guard.bucketGet st key = some b) : Guard.bucketSet st key b = st := by
  induction st with
  | nil => simp [Guard.bucketGet] at h
  | cons kv rest ih =>
    obtain ⟨k1, b1⟩ := kv
    by_cases hk : k1 = key
    · subst hk
      unfold Guard.bucketGet at h
      rw [List.find?_cons_of_pos _ (by simp)] at h
      have h2 : b1 = b := by simpa using h
      simp [Guard.bucketSet, ← h2]
    · unfold Guard.bucketGet at h
      rw [List.find?_cons_of_neg _ (by simp [hk])] at h
      simp only [Guard.bucketSet]
      rw [if_neg hk]
      rw [ih h]

/-- At the same instant, a failing call leaves the bucket map unchanged. -/
theorem checkRateLimit_false_no_consume (now : Rat) (key : String)
    (cap rate : Rat) (st : Guard.BucketMap) (b : Guard.Bucket)
    (hget : Guard.bucketGet st key = some b) (hlr : b.lastRefill = now)
    (hcap : b.tokens ≤ cap) (hlt : b.tokens < 1) :
    Guard.checkRateLimit now key cap rate st = (false, st) := by
  rw [checkRateLimit_same_instant now key cap rate b st hget hlr hcap,
    if_pos hlt]
  have hb : (⟨b.tokens, now⟩ : Guard.Bucket) = b := by
    cases b; simp_all
  rw [hb, bucketSet_self st key b hget]

/-- Draining `m ≤ cap` whole tokens at one instant: every call succeeds
and the bucket ends empty. -/
theorem checkRateLimitN_drain (now : Rat) (key : String) (cap : Nat) (rate : Rat) :
    ∀ m : Nat, m ≤ cap →
      Guard.checkRateLimitN now key (cap : Rat) rate m [(key, ⟨(m : Rat), now⟩)] =
        (List.replicate m true, [(key, ⟨0, now⟩)]) := by
  intro m
  induction m with
  | zero => intro _; simp [Guard.checkRateLimitN]
  | succ n ih =>
    intro hle
    have hcast : (((n : Nat) + 1 : Nat) : Rat) ≤ (cap : Rat) := by exact_mod_cast hle
    have hstep := checkRateLimit_same_instant now key (cap : Rat) rate
      ⟨((n + 1 : Nat) : Rat), now⟩ [(key, ⟨((n + 1 : Nat) : Rat), now⟩)]
      (by simp [Guard.bucketGet]) rfl hcast
    have hnotlt : ¬ (((n + 1 : Nat) : Rat) < 1) := by
      push_cast
      have hge : (0 : Rat) ≤ (n : Rat) := by positivity
      linarith
    rw [if_neg hnotlt] at hstep
    have hsub : ((n + 1 : Nat) : Rat) - 1 = ((n : Nat) : Rat) := by push_cast; ring
    have hbs : Guard.bucketSet [(key, ⟨((n + 1 : Nat) : Rat), now⟩)] key
        ⟨((n + 1 : Nat) : Rat) - 1, now⟩ = [(key, ⟨((n : Nat) : Rat), now⟩)] := by
      simp [Guard.bucketSet, hsub]
    simp only [Guard.checkRateLimitN, hstep]
    rw [hbs, ih (by omega)]
    simp [List.replicate_succ]

/-- C8: counterexample on the code. The claim states ANY call returning
false leaves the bucket state unmutated. With capacity 1 and refill 1/2
token per second: the call at time 0 succeeds (tokens 1 → 0); the call
1000 ms later returns false, but it has banked the partial refill and
advanced the stamp — the bucket changes from `(0, 0)` to `(1/2, 1000)`. -/
theorem C8_checkRateLimit_false_call_still_mutates :
    (Guard.checkRateLimit 0 "k" 1 (1/2) []).1 = true ∧
    (Guard.checkRateLimit 0 "k" 1 (1/2) []).2 = [("k", ⟨0, 0⟩)] ∧
    (Guard.checkRateLimit 1000 "k" 1 (1/2) [("k", ⟨0, 0⟩)]).1 = false ∧
    (Guard.checkRateLimit 1000 "k" 1 (1/2) [("k", ⟨0, 0⟩)]).2 =
      [("k", ⟨1/2, 1000⟩)] ∧
    [("k", (⟨1/2, 1000⟩ : Guard.Bucket))] ≠ [("k", (⟨0, 0⟩ : Guard.Bucket))] := by
  refine ⟨?_, ?_, ?_, ?_, ?_⟩ <;>
    norm_num [Guard.checkRateLimit, Guard.bucketGet, Guard.bucketSet,
      Guard.Bucket.mk.injEq]

/-- C8 amended: for every key, integer capacity `cap ≥ 1` and refill
rate, `cap + 1` calls at the same instant from a fresh bucket yield `cap`
successes followed by one failure, and the failing call leaves the bucket
map exactly as it was; in general a call that returns false consumes
nothing — at the same instant it leaves the state unchanged, though after
time has elapsed it still banks the refill and advances `lastRefill`. -/
theorem C8_checkRateLimit_cap_exhaustion (cap : Nat) (hcap : 1 ≤ cap)
    (key : String) (now rate : Rat) :
    Guard.checkRateLimitN now key (cap : Rat) rate (cap + 1) [] =
      (List.replicate cap true ++ [false], [(key, ⟨0, now⟩)]) ∧
    (∀ st b, Guard.bucketGet st key = some b → b.lastRefill = now →
      b.tokens ≤ (cap : Rat) → b.tokens < 1 →
      Guard.checkRateLimit now key (cap : Rat) rate st = (false, st)) := by
  have hc1 : (1 : Rat) ≤ (cap : Rat) := by exact_mod_cast hcap
  have hne : ¬ ((cap : Rat) < 1) := not_lt.mpr hc1
  have hfirst : Guard.checkRateLimit now key (cap : Rat) rate [] =
      (true, [(key, ⟨(cap : Rat) - 1, now⟩)]) := by
    simp [Guard.checkRateLimit, Guard.bucketGet, Guard.bucketSet, hne]
  have hcastsub : ((cap - 1 : Nat) : Rat) = (cap : Rat) - 1 := by
    push_cast [Nat.cast_sub hcap]
    ring
  have hdrain := checkRateLimitN_drain now key cap rate (cap - 1) (by omega)
  rw [hcastsub] at hdrain
  have hlast := checkRateLimit_false_no_consume now key (cap : Rat) rate
    [(key, ⟨0, now⟩)] ⟨0, now⟩ (by simp [Guard.bucketGet]) rfl
    (by positivity) (by norm_num)
  constructor
  · have hsplit : cap + 1 = 1 + (cap - 1 + 1) := by omega
    rw [hsplit, checkRateLimitN_append]
    have h1 : Guard.checkRateLimitN now key (cap : Rat) rate 1 [] =
        ([true], [(key, ⟨(cap : Rat) - 1, now⟩)]) := by
      simp [Guard.checkRateLimitN, hfirst]
    rw [h1]
    rw [checkRateLimitN_append]
    rw [hdrain]
    have h2 : Guard.checkRateLimitN now key (cap : Rat) rate 1
        [(key, ⟨0, now⟩)] = ([false], [(key, ⟨0, now⟩)]) := by
      simp [Guard.checkRateLimitN, hlast]
    rw [h2]
    have hrep : List.replicate cap true = true :: List.replicate (cap - 1) true := by
      have hc2 : cap = (cap - 1) + 1 := by omega
      rw [hc2, List.replicate_succ]
      simp
    rw [hrep]
    simp
  · intro st b hget hlr hle hlt
    exact checkRateLimit_false_no_consume now key (cap : Rat) rate st b hget hlr hle hlt

/-- C8 witness: the exhaustion theorem applied to capacity 2, key `"k"`,
time 0 and refill rate 5. -/
theorem C8_checkRateLimit_cap_exhaustion_witness :
    Guard.checkRateLimitN 0 "k" ((2 : Nat) : Rat) 5 (2 + 1) [] =
      (List.replicate 2 true ++ [false], [("k", ⟨0, 0⟩)]) :=
  (C8_checkRateLimit_cap_exhaustion 2 (by norm_num) "k" 0 5).1

/-- Once the future returned by `requestApproval` has settled, the request
is no longer pending. -/
theorem approval_future_set_not_pending (s : Approvals.ApprState)
    (h : Approvals.ReachableApproval s) :
    s.futureResult ≠ none → s.status ≠ .pending := by
  obtain ⟨ops, rfl⟩ := h
  suffices hgen : ∀ (t : Approvals.ApprState),
      (t.futureResult ≠ none → t.status ≠ .pending) →
      ((Approvals.runApproval ops t).futureResult ≠ none →
        (Approvals.runApproval ops t).status ≠ .pending) by
    exact hgen Approvals.requestApprovalState (by intro h2; simp [Approvals.requestApprovalState] at h2)
  induction ops with
  | nil => intro t ht; exact ht
  | cons op rest ih =>
    intro t ht
    simp only [Approvals.runApproval, List.foldl_cons] at *
    apply ih
    cases op with
    | resolve d =>
      by_cases hp : t.status = .pending
      · simp only [Approvals.stepApproval, Approvals.resolveApproval, hp]
        intro _
        cases d <;> simp
      · simp only [Approvals.stepApproval, Approvals.resolveApproval, hp,
          ne_eq, not_false_eq_true, if_neg]
        simpa using ht
    | timer =>
      by_cases hp : t.status = .pending
      · simp [Approvals.stepApproval, Approvals.timerFire, hp]
      · simp only [Approvals.stepApproval, Approvals.timerFire, hp, if_neg]
        simpa using ht

/-- C9: the approval lifecycle. Resolving a pending request as approved
settles the waiting future to true; as rejected, to false; the 30-minute
timer settles an unresolved request to false and marks it expired; a
resolution on a request that is no longer pending returns null, changes
nothing and wakes no future; and once the future has settled, no further
event (resolution or timer) changes it, so at most one resolution wakes
the waiting future. -/
theorem C9_approval_lifecycle :
    (Approvals.resolveApproval .approved Approvals.requestApprovalState =
      (some .approved, ⟨.approved, false, some true⟩)) ∧
    (Approvals.resolveApproval .rejected Approvals.requestApprovalState =
      (some .rejected, ⟨.rejected, false, some false⟩)) ∧
    (Approvals.timerFire Approvals.requestApprovalState =
      ⟨.expired, false, some false⟩) ∧
    (∀ s : Approvals.ApprState, s.status ≠ .pending →
      ∀ d, Approvals.resolveApproval d s = (none, s)) ∧
    (∀ s : Approvals.ApprState, Approvals.ReachableApproval s →
      ∀ b, s.futureResult = some b →
        ∀ op, (Approvals.stepApproval op s).futureResult = some b) := by
  refine ⟨?_, ?_, ?_, ?_, ?_⟩
  · simp [Approvals.resolveApproval, Approvals.requestApprovalState]
  · simp [Approvals.resolveApproval, Approvals.requestApprovalState]
  · simp [Approvals.timerFire, Approvals.requestApprovalState]
  · intro s hs d
    simp [Approvals.resolveApproval, hs]
  · intro s hreach b hb op
    have hnp : s.status ≠ .pending :=
      approval_future_set_not_pending s hreach (by simp [hb])
    cases op with
    | resolve d => simp [Approvals.stepApproval, Approvals.resolveApproval, hnp, hb]
    | timer => simp [Approvals.stepApproval, Approvals.timerFire, hnp, hb]

/-- C9 witness: idempotence applied to an already-approved request, and
future stability applied to the state reached by letting the timer expire
a fresh request. -/
theorem C9_approval_lifecycle_witness :
    Approvals.resolveApproval .approved ⟨.approved, false, some true⟩ =
      (none, ⟨.approved, false, some true⟩) ∧
    (Approvals.stepApproval (.resolve .approved)
        (Approvals.runApproval [.timer] Approvals.requestApprovalState)).futureResult =
      some false :=
  ⟨C9_approval_lifecycle.2.2.2.1 ⟨.approved, false, some true⟩ (by decide) .approved,
   C9_approval_lifecycle.2.2.2.2
     (Approvals.runApproval [.timer] Approvals.requestApprovalState)
     ⟨[.timer], rfl⟩ false (by decide) (.resolve .approved)⟩

/-- Looking up any listed id in an all-empty dependency map gives
`some []`. -/
theorem depsLookup_map_empty (l : List Orchestrator.PlannedSubtask) (key : String)
    (h : ∃ x ∈ l, x.id = key) :
    Orchestrator.depsLookup (l.map (fun s => (s.id, ([] : List String)))) key =
      some [] := by
  induction l with
  | nil => simp at h
  | cons s rest ih =>
    by_cases hs : s.id = key
    · unfold Orchestrator.depsLookup
      rw [List.map_cons, List.find?_cons_of_pos _ (by simp [hs])]
      simp
    · unfold Orchestrator.depsLookup
      rw [List.map_cons, List.find?_cons_of_neg _ (by simp [hs])]
      obtain ⟨x, hx, hxk⟩ := h
      rcases List.mem_cons.1 hx with rfl | hxr
      · exact absurd hxk hs
      · exact ih ⟨x, hxr, hxk⟩

/-- C10: every plan built by `planTask` assigns the empty prerequisite
list to every subtask — the `dependsOn` lists in the parsed LLM response
are never copied into the plan — so the dependency graph is trivially
acyclic and the unmet-dependency check of `executePlan` yields the empty
list for every subtask and every completed set. -/
theorem C10_plan_dependencies_empty (uuid : Nat → String)
    (parsed : Option (List Orchestrator.RawSubtask))
    (parentTaskId taskTitle taskDescription : String)
    (st : Orchestrator.PlannedSubtask)
    (hst : st ∈ (Orchestrator.planTask uuid parsed parentTaskId taskTitle
      taskDescription).subtasks) :
    Orchestrator.depsLookup (Orchestrator.planTask uuid parsed parentTaskId
      taskTitle taskDescription).dependencies st.id = some [] ∧
    ∀ completed, Orchestrator.unmetDeps
      (Orchestrator.planTask uuid parsed parentTaskId taskTitle taskDescription)
      completed st = [] := by
  have hdep : (Orchestrator.planTask uuid parsed parentTaskId taskTitle
      taskDescription).dependencies =
      (Orchestrator.planTask uuid parsed parentTaskId taskTitle
        taskDescription).subtasks.map (fun s => (s.id, ([] : List String))) := rfl
  have hl := depsLookup_map_empty
    (Orchestrator.planTask uuid parsed parentTaskId taskTitle
      taskDescription).subtasks st.id ⟨st, hst, rfl⟩
  refine ⟨hdep ▸ hl, ?_⟩
  intro completed
  unfold Orchestrator.unmetDeps
  rw [hdep, hl]
  simp

/-- C10 witness: the theorem applied to a plan parsed from one raw
subtask that DID declare a dependency (`dependsOn = ["b"]`); its
dependency entry in the plan is nevertheless empty. -/
theorem C10_plan_dependencies_empty_witness :
    Orchestrator.depsLookup
      (Orchestrator.planTask (fun _ => "u")
        (some [⟨"a", "d", none, none, some "A", some 3, some true, ["b"]⟩])
        "p" "t" "desc").dependencies "u" = some [] :=
  (C10_plan_dependencies_empty (fun _ => "u")
    (some [⟨"a", "d", none, none, some "A", some 3, some true, ["b"]⟩])
    "p" "t" "desc" ⟨"u", "a", "d", "executor", "balanced", some "A", 3, true⟩
    (by decide)).1

end Tetsuo
